import Mathlib

/-!
Verification of the event-to-record pipeline of the FPS mouse tester
(`fps_mouse_tester_and_diagnosis.py`), as a shallow embedding.

Modelling conventions:
* Millisecond timestamps are `Int`.
* The CPS threshold (`self._combat_cps`, a Python float holding small
  decimal values) is modelled as `ℚ`; the only arithmetic on it is the
  comparison against a small integer count, which is exact in both
  representations.
* A CSV cell is either blank (`""` written for a disabled coordinate),
  an integer, or a piece of text (ISO timestamp, event name, combat label).
* The open CSV file is the list of rows written so far; the bounded UI
  queue is a list with capacity `QUEUE_CAPACITY` (2000 in `App.__init__`).
* Wall-clock reads (`_ts_ms`, `_ts_iso`) are passed in as parameters of the
  callbacks; the periodic flush bookkeeping (`_last_flush`) has no
  observable effect on the modelled state and is omitted.
-/

namespace FPSMouse

/-- `COMBAT_WINDOW_MS = 1000`: rolling window (ms) for CPS. -/
def COMBAT_WINDOW_MS : Int := 1000

/-- Capacity of the UI event queue (`queue.Queue(maxsize=2000)`). -/
def QUEUE_CAPACITY : Nat := 2000

/-- The `HEADER` constant: CSV schema column names, in order. -/
def HEADER : List String :=
  ["timestamp", "ms_since_start", "x", "y", "dx", "dy",
   "ms_since_button_event", "combat_state", "scroll_near_click", "event"]

/-- One CSV cell: blank (the empty string written for disabled
coordinates), an integer, or text. -/
inductive Cell where
  | blank : Cell
  | num : Int → Cell
  | txt : String → Cell
deriving DecidableEq

/-- The header row as written by `csv.writerow(HEADER)`. -/
def headerRow : List Cell := HEADER.map Cell.txt

/-- The arguments of one `_write_row` call, in the source parameter order
`(ts_iso, ms_since_start, x, y, dx, dy, event, ms_since_button_event,
scroll_near_click, combat_state)`.  This tuple is also what
`event_queue.put_nowait` forwards to the UI. -/
structure RowArgs where
  ts_iso : String
  ms_since_start : Int
  x : Cell
  y : Cell
  dx : Cell
  dy : Cell
  event : String
  ms_since_button_event : Int
  scroll_near_click : Int
  combat_state : String
deriving DecidableEq

/-- The mutable state of a `LoggerCore` instance, together with the
observable effects of its file and queue writes.  `f_open`/`csv_open`
model `self._f`/`self._csv` being non-`None`; `close_count` counts the
`self._f.close()` calls actually performed; `file_rows` is the content of
the open CSV file; `event_queue` is the bounded UI queue. -/
structure LoggerCore where
  near_click_ms : Int
  combat_cps : ℚ
  coords_enabled : Bool
  start_ms : Option Int
  last_btn_ts_ms : Option Int
  lmb_down_times : List Int
  listener : Bool
  f_open : Bool
  csv_open : Bool
  close_count : Nat
  file_rows : List (List Cell)
  event_queue : List RowArgs
deriving DecidableEq

/-- The pruning loop shared by `_record_lmb_down` and `_combat_state`:
`while deque and deque[0] < cutoff: deque.popleft()`.  It removes leading
entries strictly below the cutoff and stops at the first survivor. -/
def pruneOld (cutoff : Int) : List Int → List Int
  | [] => []
  | t :: ts => if t < cutoff then pruneOld cutoff ts else t :: ts

/-- `_record_lmb_down(now_ms)`: append the timestamp, then prune entries
older than `now_ms - COMBAT_WINDOW_MS`. -/
def record_lmb_down (now_ms : Int) (times : List Int) : List Int :=
  pruneOld (now_ms - COMBAT_WINDOW_MS) (times ++ [now_ms])

/-- The clicks-per-second value computed inside `_combat_state`:
`len(self._lmb_down_times) / (COMBAT_WINDOW_MS / 1000.0)` after pruning.
This is the spec's `current_rate(now)`. -/
def current_rate (now_ms : Int) (times : List Int) : ℚ :=
  ((pruneOld (now_ms - COMBAT_WINDOW_MS) times).length : ℚ) /
    ((COMBAT_WINDOW_MS : ℚ) / 1000)

/-- `_combat_state(now_ms)`: prune the deque, compute CPS, return the
pruned deque (the method mutates `self._lmb_down_times`) and the label:
`"combat"` if `cps >= self._combat_cps` else `"idle"`. -/
def combat_state_calc (now_ms : Int) (cps_threshold : ℚ) (times : List Int) :
    List Int × String :=
  let pruned := pruneOld (now_ms - COMBAT_WINDOW_MS) times
  let cps : ℚ := (pruned.length : ℚ) / ((COMBAT_WINDOW_MS : ℚ) / 1000)
  (pruned, if cps_threshold ≤ cps then "combat" else "idle")

/-- `event_queue.put_nowait(item)` with `queue.Full` swallowed: append when
below capacity, otherwise drop the item. -/
def put_nowait (q : List RowArgs) (r : RowArgs) : List RowArgs :=
  if q.length < QUEUE_CAPACITY then q ++ [r] else q

/-- The CSV row written by `_write_row` (source line with
`self._csv.writerow`): note the reordering of the method's parameters into
`[ts_iso, ms_since_start, x, y, dx, dy, ms_since_button_event,
combat_state, scroll_near_click, event]`. -/
def rowCells (r : RowArgs) : List Cell :=
  [Cell.txt r.ts_iso, Cell.num r.ms_since_start, r.x, r.y, r.dx, r.dy,
   Cell.num r.ms_since_button_event, Cell.txt r.combat_state,
   Cell.num r.scroll_near_click, Cell.txt r.event]

/-- `_write_row`: no-op when `self._csv` is `None`; otherwise append the
CSV row and forward the argument tuple to the UI queue, dropping it
silently when the queue is full. -/
def write_row (st : LoggerCore) (r : RowArgs) : LoggerCore :=
  if st.csv_open = false then st
  else { st with
          file_rows := st.file_rows ++ [rowCells r]
          event_queue := put_nowait st.event_queue r }

/-- The event name of `_on_click`: `f"{button.name}{'Down' if pressed else 'Up'}"`. -/
def buttonEventName (button : String) (pressed : Bool) : String :=
  button ++ (if pressed then "Down" else "Up")

/-- The event name of `_on_scroll`:
`"WheelUp" if dy > 0 else "WheelDown" if dy < 0 else "Wheel"`. -/
def wheelEventName (dy : Int) : String :=
  if dy > 0 then "WheelUp" else if dy < 0 then "WheelDown" else "Wheel"

/-- `ms_since_start` as computed in both callbacks:
`0 if self.start_ms is None else now_ms - self.start_ms`. -/
def msSinceStart (start_ms : Option Int) (now_ms : Int) : Int :=
  match start_ms with
  | none => 0
  | some s => now_ms - s

/-- The record built by `_on_click` (the `_write_row` argument tuple).
`ms_since_button_event` and `scroll_near_click` are the constants 0;
`combat_state` is computed after the possible `_record_lmb_down`; when
coordinates are disabled all four of `x, y, dx, dy` become blank,
otherwise `dx = dy = 0`. -/
def clickRecord (st : LoggerCore) (xc yc : Int) (button : String)
    (pressed : Bool) (ts_iso : String) (now_ms : Int) : RowArgs :=
  let times0 :=
    if button = "left" ∧ pressed = true then
      record_lmb_down now_ms st.lmb_down_times
    else st.lmb_down_times
  let cs := (combat_state_calc now_ms st.combat_cps times0).2
  if st.coords_enabled = false then
    { ts_iso := ts_iso, ms_since_start := msSinceStart st.start_ms now_ms
      x := Cell.blank, y := Cell.blank, dx := Cell.blank, dy := Cell.blank
      event := buttonEventName button pressed
      ms_since_button_event := 0, scroll_near_click := 0, combat_state := cs }
  else
    { ts_iso := ts_iso, ms_since_start := msSinceStart st.start_ms now_ms
      x := Cell.num xc, y := Cell.num yc, dx := Cell.num 0, dy := Cell.num 0
      event := buttonEventName button pressed
      ms_since_button_event := 0, scroll_near_click := 0, combat_state := cs }

/-- `_on_click(x, y, button, pressed)` with the two clock reads passed in:
track LMB downs, update `last_btn_ts_ms`, then `_write_row` the record. -/
def on_click (st : LoggerCore) (xc yc : Int) (button : String)
    (pressed : Bool) (ts_iso : String) (now_ms : Int) : LoggerCore :=
  let times0 :=
    if button = "left" ∧ pressed = true then
      record_lmb_down now_ms st.lmb_down_times
    else st.lmb_down_times
  let st1 := { st with
                lmb_down_times := (combat_state_calc now_ms st.combat_cps times0).1
                last_btn_ts_ms := some now_ms }
  write_row st1 (clickRecord st xc yc button pressed ts_iso now_ms)

/-- The record built by `_on_scroll`: `ms_since_button_event` is
`0 if self._last_btn_ts_ms is None else now_ms - self._last_btn_ts_ms`;
`scroll_near_click` is 1 exactly when a prior button event exists and
`0 <= ms_since_button_event <= self._near_click_ms`. -/
def scrollRecord (st : LoggerCore) (xc yc dxv dyv : Int) (ts_iso : String)
    (now_ms : Int) : RowArgs :=
  let msbe : Int :=
    match st.last_btn_ts_ms with
    | none => 0
    | some lb => now_ms - lb
  let snc : Int :=
    if st.last_btn_ts_ms ≠ none ∧ 0 ≤ msbe ∧ msbe ≤ st.near_click_ms
    then 1 else 0
  let cs := (combat_state_calc now_ms st.combat_cps st.lmb_down_times).2
  if st.coords_enabled = false then
    { ts_iso := ts_iso, ms_since_start := msSinceStart st.start_ms now_ms
      x := Cell.blank, y := Cell.blank, dx := Cell.blank, dy := Cell.blank
      event := wheelEventName dyv
      ms_since_button_event := msbe, scroll_near_click := snc, combat_state := cs }
  else
    { ts_iso := ts_iso, ms_since_start := msSinceStart st.start_ms now_ms
      x := Cell.num xc, y := Cell.num yc, dx := Cell.num dxv, dy := Cell.num dyv
      event := wheelEventName dyv
      ms_since_button_event := msbe, scroll_near_click := snc, combat_state := cs }

/-- `_on_scroll(x, y, dx, dy)`: prune the deque via `_combat_state`
(its only mutation), then `_write_row` the record. -/
def on_scroll (st : LoggerCore) (xc yc dxv dyv : Int) (ts_iso : String)
    (now_ms : Int) : LoggerCore :=
  let st1 := { st with
                lmb_down_times :=
                  (combat_state_calc now_ms st.combat_cps st.lmb_down_times).1 }
  write_row st1 (scrollRecord st xc yc dxv dyv ts_iso now_ms)

/-- `start()`: return immediately if a listener is already running;
otherwise open the file in append mode (`disk` is the file found on disk:
`none` when the path does not exist, `some rows` its rows otherwise),
write the header if the file is new or empty, record the session start,
and start the listener. -/
def start (st : LoggerCore) (disk : Option (List (List Cell)))
    (now_ms : Int) : LoggerCore :=
  if st.listener = true then st
  else
    let new_file : Bool := disk = none ∨ disk = some []
    let rows := disk.getD []
    let rows1 := if new_file then rows ++ [headerRow] else rows
    { st with
        f_open := true, csv_open := true, file_rows := rows1
        start_ms := some now_ms, listener := true }

/-- `stop()`: stop and clear the listener when present; flush, close and
clear the file handle and CSV writer when the file is open. -/
def stop (st : LoggerCore) : LoggerCore :=
  let st1 := if st.listener = true then { st with listener := false } else st
  if st1.f_open = true then
    { st1 with
        f_open := false, csv_open := false
        close_count := st1.close_count + 1 }
  else st1

/-- The documented CSV column order, written out from the spec's interface
section (`timestamp, ms_since_start, x, y, dx, dy, ms_since_button_event,
combat_state, scroll_near_click, event`), each cell taken from the record
field of the same name.  Kept separate from `rowCells` (which follows the
source's `writerow` line) so their agreement is a theorem, not a
definition. -/
def specColumnOrder (r : RowArgs) : List Cell :=
  [Cell.txt r.ts_iso, Cell.num r.ms_since_start, r.x, r.y, r.dx, r.dy,
   Cell.num r.ms_since_button_event, Cell.txt r.combat_state,
   Cell.num r.scroll_near_click, Cell.txt r.event]

/-- Read one data row back into a record, inverting the cell encoding. -/
def readRow : List Cell → Option RowArgs
  | [Cell.txt ts, Cell.num ms, x, y, dx, dy, Cell.num msbe, Cell.txt cs,
     Cell.num snc, Cell.txt ev] =>
    some { ts_iso := ts, ms_since_start := ms, x := x, y := y, dx := dx,
           dy := dy, event := ev, ms_since_button_event := msbe,
           scroll_near_click := snc, combat_state := cs }
  | _ => none

/-- Replay a sequence of `_record_lmb_down(t)` calls on an initially empty
deque, in order. -/
def foldRecord (ts : List Int) : List Int :=
  ts.foldl (fun acc t => record_lmb_down t acc) []

/-- A sample record, as `_write_row` would receive it. -/
def r0 : RowArgs :=
  { ts_iso := "2024-01-01T00:00:00.000", ms_since_start := 0
    x := Cell.blank, y := Cell.blank, dx := Cell.blank, dy := Cell.blank
    event := "leftDown", ms_since_button_event := 0, scroll_near_click := 0
    combat_state := "idle" }

/-- A concrete logger state whose listener is running (Active session). -/
def activeState : LoggerCore :=
  { near_click_ms := 80, combat_cps := 2, coords_enabled := false
    start_ms := some 0, last_btn_ts_ms := none, lmb_down_times := []
    listener := true, f_open := true, csv_open := true, close_count := 0
    file_rows := [headerRow], event_queue := [] }

/-- The same Active state with coordinate capture enabled. -/
def activeCoordsState : LoggerCore :=
  { activeState with coords_enabled := true }

/-- An Active state that saw a button event at t = 1000 ms. -/
def scrollState : LoggerCore :=
  { activeState with last_btn_ts_ms := some 1000 }

/-- A concrete Idle state (no listener, no open file). -/
def idleState : LoggerCore :=
  { activeState with
    listener := false, f_open := false, csv_open := false
    file_rows := [] }

/-- A state whose CSV writer has been released (as after `stop()`). -/
def closedState : LoggerCore :=
  { activeState with f_open := false, csv_open := false }

/-- An Active state whose UI queue is at capacity. -/
def fullQueueState : LoggerCore :=
  { activeState with event_queue := List.replicate QUEUE_CAPACITY r0 }

/-- C1 counterexample: at a concrete Active state, `start` returns with
the state unchanged — a silent no-op, with no error surfaced. -/
theorem start_while_active_is_silent :
    start activeState none 5 = activeState := rfl

/-- C1 (amended): calling `start` while a listener is already running
returns immediately without error and leaves the state unchanged (a
silent no-op); no `AlreadyActive` failure is surfaced. -/
theorem start_noop_when_active (st : LoggerCore)
    (disk : Option (List (List Cell))) (now : Int)
    (h : st.listener = true) : start st disk now = st := by
  simp [start, h]

/-- Witness for C1 (amended) at the concrete Active state. -/
theorem start_noop_when_active_witness :
    activeState.listener = true ∧ start activeState (some []) 7 = activeState :=
  ⟨rfl, start_noop_when_active activeState (some []) 7 rfl⟩

/-- C6: starting from Idle, a nonexistent or empty file gets exactly the
header row written (before any data row); a non-empty existing file is
appended to with no second header. -/
theorem header_written_once (st : LoggerCore)
    (disk : Option (List (List Cell))) (now : Int)
    (hidle : st.listener = false) :
    ((disk = none ∨ disk = some []) →
      (start st disk now).file_rows = [headerRow])
    ∧ (∀ rows, disk = some rows → rows ≠ [] →
        (start st disk now).file_rows = rows) := by
  constructor
  · rintro (hd | hd) <;> subst hd <;> simp [start, hidle]
  · rintro rows hd hne
    subst hd
    simp [start, hidle, hne]

/-- Witness for C6: a fresh path yields exactly the header; a non-empty
existing file is left as-is. -/
theorem header_written_once_witness :
    (start idleState none 0).file_rows = [headerRow] ∧
    (start idleState (some [[Cell.txt "x"]]) 0).file_rows = [[Cell.txt "x"]] :=
  ⟨(header_written_once idleState none 0 rfl).1 (Or.inl rfl),
   (header_written_once idleState (some [[Cell.txt "x"]]) 0 rfl).2
     [[Cell.txt "x"]] rfl (by simp)⟩

/-- C7: `stop` is idempotent — a second `stop` changes nothing, performs
no second close (the close counter stays put), and after any `stop` the
listener reference and file handle are cleared. -/
theorem stop_idempotent (st : LoggerCore) :
    stop (stop st) = stop st ∧ (stop st).listener = false ∧
      (stop st).f_open = false ∧
      (stop (stop st)).close_count = (stop st).close_count := by
  by_cases hl : st.listener = true <;> by_cases hf : st.f_open = true <;>
    simp [stop, hl, hf]

/-- C8: with the writer open and the queue at capacity, `_write_row`
still appends the CSV row while the queue forward is dropped silently;
and a queue within capacity never exceeds capacity after a write. -/
theorem queue_full_drops (st : LoggerCore) (r : RowArgs)
    (hopen : st.csv_open = true) :
    (st.event_queue.length = QUEUE_CAPACITY →
      (write_row st r).event_queue = st.event_queue ∧
      (write_row st r).file_rows = st.file_rows ++ [rowCells r])
    ∧ (st.event_queue.length ≤ QUEUE_CAPACITY →
        (write_row st r).event_queue.length ≤ QUEUE_CAPACITY) := by
  constructor
  · intro hfull
    constructor <;> simp [write_row, hopen, put_nowait, hfull]
  · intro hb
    by_cases h : st.event_queue.length < QUEUE_CAPACITY <;>
      simp [write_row, hopen, put_nowait, h] <;> omega

/-- Witness for C8 at a concrete state whose queue holds
`QUEUE_CAPACITY` records: the queue is unchanged, the row is written. -/
theorem queue_full_drops_witness :
    (write_row fullQueueState r0).event_queue = fullQueueState.event_queue ∧
    (write_row fullQueueState r0).file_rows =
      fullQueueState.file_rows ++ [rowCells r0] :=
  (queue_full_drops fullQueueState r0 rfl).1
    (by simp [fullQueueState, activeState])

/-- C9 counterexample: with coordinate capture enabled, a button event's
`dx` is the number 0, not blank — the claim's "blank regardless of the
toggle" fails. -/
theorem click_dx_zero_when_coords_on :
    (clickRecord activeCoordsState 5 7 "left" true "t0" 100).dx = Cell.num 0
    ∧ Cell.num 0 ≠ Cell.blank := by
  constructor
  · rfl
  · simp

/-- C9 (amended): for button events `dx` and `dy` never carry wheel
deltas: with the coordinate toggle disabled all of `x, y, dx, dy` are
blank; with it enabled, `x, y` are the cursor coordinates and `dx, dy`
are the number 0. -/
theorem click_deltas_by_toggle (st : LoggerCore) (xc yc : Int)
    (button : String) (pressed : Bool) (ts : String) (now : Int) :
    (st.coords_enabled = false →
      (clickRecord st xc yc button pressed ts now).x = Cell.blank ∧
      (clickRecord st xc yc button pressed ts now).y = Cell.blank ∧
      (clickRecord st xc yc button pressed ts now).dx = Cell.blank ∧
      (clickRecord st xc yc button pressed ts now).dy = Cell.blank)
    ∧ (st.coords_enabled = true →
      (clickRecord st xc yc button pressed ts now).x = Cell.num xc ∧
      (clickRecord st xc yc button pressed ts now).y = Cell.num yc ∧
      (clickRecord st xc yc button pressed ts now).dx = Cell.num 0 ∧
      (clickRecord st xc yc button pressed ts now).dy = Cell.num 0) := by
  constructor <;> intro h <;> simp [clickRecord, h]

/-- Witness for C9 (amended): both toggle positions at concrete states. -/
theorem click_deltas_by_toggle_witness :
    (clickRecord activeState 5 7 "left" true "t0" 100).dx = Cell.blank ∧
    (clickRecord activeCoordsState 5 7 "left" true "t0" 100).dy = Cell.num 0 :=
  ⟨((click_deltas_by_toggle activeState 5 7 "left" true "t0" 100).1
      rfl).2.2.1,
   ((click_deltas_by_toggle activeCoordsState 5 7 "left" true "t0" 100).2
      rfl).2.2.2⟩

/-- C10: with no CSV writer open (before `start` or after `stop`),
`_write_row` is a total no-op: the state — file rows and queue included —
is returned unchanged and nothing is raised. -/
theorem write_row_noop_when_closed (st : LoggerCore) (r : RowArgs)
    (h : st.csv_open = false) : write_row st r = st := by
  simp [write_row, h]

/-- Witness for C10 at a concrete closed state. -/
theorem write_row_noop_when_closed_witness :
    write_row closedState r0 = closedState :=
  write_row_noop_when_closed closedState r0 rfl

/-- `_write_row` never touches the CSV-writer flag. -/
theorem write_row_csv_open (st : LoggerCore) (r : RowArgs) :
    (write_row st r).csv_open = st.csv_open := by
  by_cases h : st.csv_open = false <;> simp [write_row, h]

/-- With the writer open, replaying `_write_row` over a list of records
appends exactly their CSV rows, in order. -/
theorem foldl_write_row_file_rows (rs : List RowArgs) (st : LoggerCore)
    (h : st.csv_open = true) :
    (List.foldl write_row st rs).file_rows =
      st.file_rows ++ rs.map rowCells := by
  induction rs generalizing st with
  | nil => simp
  | cons r rs ih =>
    have hop : (write_row st r).csv_open = true := by
      rw [write_row_csv_open]; exact h
    have hfr : (write_row st r).file_rows = st.file_rows ++ [rowCells r] := by
      simp [write_row, h]
    simp only [List.foldl_cons, List.map_cons]
    rw [ih (write_row st r) hop, hfr]
    simp

/-- C3: a wheel event's row is appended with `scroll_near_click = 1`
exactly when a prior button event exists and
`0 ≤ now - last_button_event_ms ≤ near_click_threshold_ms`; the field is
always 1 or 0, so in every other case it is 0. -/
theorem scroll_near_click_iff (st : LoggerCore) (xc yc dxv dyv : Int)
    (ts : String) (now : Int) (h : st.csv_open = true) :
    (on_scroll st xc yc dxv dyv ts now).file_rows =
      st.file_rows ++ [rowCells (scrollRecord st xc yc dxv dyv ts now)]
    ∧ ((scrollRecord st xc yc dxv dyv ts now).scroll_near_click = 1 ↔
        ∃ lb, st.last_btn_ts_ms = some lb ∧ 0 ≤ now - lb ∧
          now - lb ≤ st.near_click_ms)
    ∧ ((scrollRecord st xc yc dxv dyv ts now).scroll_near_click = 1 ∨
        (scrollRecord st xc yc dxv dyv ts now).scroll_near_click = 0) := by
  refine ⟨by simp [on_scroll, write_row, h], ?_, ?_⟩
  · cases hlb : st.last_btn_ts_ms with
    | none =>
      simp only [scrollRecord, hlb]
      by_cases hc : st.coords_enabled = false <;> simp [hc]
    | some lb =>
      simp only [scrollRecord, hlb]
      by_cases hc : st.coords_enabled = false <;>
        by_cases hcond : 0 ≤ now - lb ∧ now - lb ≤ st.near_click_ms
      · simp [hc, hcond.1, hcond.2]
        omega
      · rw [Classical.not_and_iff_or_not_not] at hcond
        constructor
        · intro h1
          exfalso
          rcases hcond with hbad | hbad <;> simp [hc, hbad] at h1
        · rintro ⟨lb2, hlb2, h0, h1⟩
          rw [Option.some_inj] at hlb2
          subst hlb2
          exact absurd (And.intro h0 h1)
            (by rcases hcond with hbad | hbad <;> intro hx <;> omega)
      · simp [hc, hcond.1, hcond.2]
        omega
      · rw [Classical.not_and_iff_or_not_not] at hcond
        constructor
        · intro h1
          exfalso
          rcases hcond with hbad | hbad <;> simp [hc, hbad] at h1
        · rintro ⟨lb2, hlb2, h0, h1⟩
          rw [Option.some_inj] at hlb2
          subst hlb2
          exact absurd (And.intro h0 h1)
            (by rcases hcond with hbad | hbad <;> intro hx <;> omega)
  · cases hlb : st.last_btn_ts_ms with
    | none =>
      simp only [scrollRecord, hlb]
      by_cases hc : st.coords_enabled = false <;> simp [hc]
    | some lb =>
      simp only [scrollRecord, hlb]
      by_cases hc : st.coords_enabled = false <;>
        by_cases hcond : 0 ≤ now - lb ∧ now - lb ≤ st.near_click_ms <;>
          simp [hc] <;> omega

/-- Witness for C3, at the spec's scenario: a button event at 1000 ms, a
wheel event at 1050 ms, threshold 80 ms. -/
theorem scroll_near_click_iff_witness :
    (scrollRecord scrollState 0 0 0 (-1) "t1" 1050).scroll_near_click = 1 :=
  (scroll_near_click_iff scrollState 0 0 0 (-1) "t1" 1050 rfl).2.1.mpr
    ⟨1000, rfl, by simp, by simp [scrollState, activeState]⟩

/-- C5: with the writer open, writing N records appends exactly N CSV
rows whose cells follow the documented column order (`rowCells`, from the
source's `writerow` call, agrees with `specColumnOrder`, from the
documented header), and each row reads back to the record it came from. -/
theorem csv_rows_round_trip (st : LoggerCore) (rs : List RowArgs)
    (h : st.csv_open = true) :
    (List.foldl write_row st rs).file_rows =
      st.file_rows ++ rs.map rowCells
    ∧ (∀ r : RowArgs, rowCells r = specColumnOrder r)
    ∧ (∀ r : RowArgs, readRow (rowCells r) = some r) := by
  refine ⟨foldl_write_row_file_rows rs st h, fun r => rfl, fun r => rfl⟩

/-- Witness for C5: one concrete record round-trips through a write. -/
theorem csv_rows_round_trip_witness :
    (List.foldl write_row activeState [r0]).file_rows =
      activeState.file_rows ++ [rowCells r0] ∧
    readRow (rowCells r0) = some r0 := by
  have h := csv_rows_round_trip activeState [r0] rfl
  exact ⟨by rw [h.1]; rfl, h.2.2 r0⟩

/-- On a deque kept in non-decreasing order, the front-pruning loop
removes exactly the entries below the cutoff. -/
theorem pruneOld_eq_filter (c : Int) (l : List Int)
    (h : l.Sorted (· ≤ ·)) :
    pruneOld c l = l.filter (fun t => decide (c ≤ t)) := by
  induction l with
  | nil => rfl
  | cons t ts ih =>
    rw [List.sorted_cons] at h
    by_cases hlt : t < c
    · have hnc : decide (c ≤ t) = false := by
        simp only [decide_eq_false_iff_not]
        omega
      simp only [pruneOld, if_pos hlt, List.filter_cons, hnc]
      simpa using ih h.2
    · have hc2 : decide (c ≤ t) = true := by
        simp only [decide_eq_true_eq]
        omega
      have hrest : ts.filter (fun u => decide (c ≤ u)) = ts := by
        apply List.filter_eq_self.mpr
        intro u hu
        have := h.1 u hu
        simp only [decide_eq_true_eq]
        omega
      simp [pruneOld, if_neg hlt, List.filter_cons, hc2, hrest]

/-- The element reported by `getLast?` is a member of the list. -/
theorem mem_of_getLastOpt (l : List Int) (t : Int)
    (h : l.getLast? = some t) : t ∈ l := by
  induction l using List.reverseRecOn with
  | nil => simp at h
  | append_singleton l0 a _ =>
    rw [List.getLast?_concat] at h
    injection h with h
    subst h
    simp

/-- In a non-decreasing list, every element is at most the last one. -/
theorem sorted_le_last (l : List Int) (t : Int) (h : l.Sorted (· ≤ ·))
    (hlast : l.getLast? = some t) : ∀ a ∈ l, a ≤ t := by
  induction l using List.reverseRecOn with
  | nil => simp at hlast
  | append_singleton l0 b _ =>
    rw [List.getLast?_concat] at hlast
    injection hlast with hbt
    subst hbt
    have hsp := List.pairwise_append.mp h
    intro a ha
    rcases List.mem_append.mp ha with ha0 | hab
    · exact hsp.2.2 a ha0 b (List.mem_singleton.mpr rfl)
    · rw [List.mem_singleton] at hab
      omega

/-- Replaying one more `_record_lmb_down` peels off the last event. -/
theorem foldRecord_append (l : List Int) (a : Int) :
    foldRecord (l ++ [a]) = record_lmb_down a (foldRecord l) := by
  simp [foldRecord, List.foldl_append]

/-- After replaying a non-decreasing sequence of LMB-down timestamps, the
deque holds exactly the recorded downs within `COMBAT_WINDOW_MS` of the
last one: pruning at every insert loses nothing that a later window read
could still count. -/
theorem foldRecord_eq (l : List Int) : l.Sorted (· ≤ ·) →
    ∀ t, l.getLast? = some t →
      foldRecord l = l.filter (fun u => decide (t - COMBAT_WINDOW_MS ≤ u)) := by
  induction l using List.reverseRecOn with
  | nil =>
    intro _ t hlast
    simp at hlast
  | append_singleton l0 a ih =>
    intro h t hlast
    rw [List.getLast?_concat] at hlast
    injection hlast with hat
    subst hat
    have hsp := List.pairwise_append.mp h
    have hs0 : l0.Sorted (· ≤ ·) := hsp.1
    have hub : ∀ x ∈ l0, x ≤ a :=
      fun x hx => hsp.2.2 x hx a (List.mem_singleton.mpr rfl)
    have hW : COMBAT_WINDOW_MS = (1000 : Int) := rfl
    have hfa : List.filter (fun u => decide (a - COMBAT_WINDOW_MS ≤ u)) [a]
        = [a] := by
      have hd : decide (a - COMBAT_WINDOW_MS ≤ a) = true := by
        rw [decide_eq_true_eq, hW]
        omega
      rw [List.filter_cons, if_pos hd]
      rfl
    rw [foldRecord_append]
    cases hl0 : l0.getLast? with
    | none =>
      have h0 : l0 = [] := List.getLast?_eq_none_iff.mp hl0
      subst h0
      simp only [List.nil_append]
      rw [hfa]
      have hnot : ¬ (a < a - COMBAT_WINDOW_MS) := by
        rw [hW]
        omega
      show pruneOld (a - COMBAT_WINDOW_MS) ([] ++ [a]) = [a]
      simp [pruneOld, hnot]
    | some t0 =>
      have hX := ih hs0 t0 hl0
      have ht0a : t0 ≤ a := hub t0 (mem_of_getLastOpt l0 t0 hl0)
      rw [hX]
      show pruneOld (a - COMBAT_WINDOW_MS)
          (l0.filter (fun u => decide (t0 - COMBAT_WINDOW_MS ≤ u)) ++ [a]) = _
      have hsX : (l0.filter (fun u => decide (t0 - COMBAT_WINDOW_MS ≤ u))
          ++ [a]).Sorted (· ≤ ·) := by
        apply List.pairwise_append.mpr
        refine ⟨hs0.filter _, List.pairwise_singleton _ _, ?_⟩
        intro x hx b hb
        rw [List.mem_singleton] at hb
        subst hb
        exact hub x (List.mem_filter.mp hx).1
      rw [pruneOld_eq_filter _ _ hsX, List.filter_append, List.filter_filter,
        List.filter_append, hfa]
      congr 1
      apply List.filter_congr
      intro x _
      by_cases hax : a - COMBAT_WINDOW_MS ≤ x
      · have ht0x : t0 - COMBAT_WINDOW_MS ≤ x := by omega
        simp [hax, ht0x]
      · simp [hax]

/-- Under the bound `t ≤ now`, membership in the trailing window needs
only its lower edge. -/
theorem filter_window (times : List Int) (now : Int)
    (hle : ∀ t ∈ times, t ≤ now) :
    times.filter (fun t => decide (now - COMBAT_WINDOW_MS ≤ t)) =
      times.filter (fun t => decide (now - COMBAT_WINDOW_MS ≤ t ∧ t ≤ now)) := by
  apply List.filter_congr
  intro x hx
  have hxn := hle x hx
  rw [decide_eq_decide]
  exact ⟨fun h1 => ⟨h1, hxn⟩, fun h1 => h1.1⟩

/-- C2: for a deque of past LMB-down times (non-decreasing, none in the
future) and any threshold ≥ 0, `_combat_state` answers `"combat"` exactly
when the count of downs in the closed trailing window `[now - 1000, now]`,
divided by the window length in seconds, reaches the threshold — and
`"idle"` otherwise, since the two labels differ. -/
theorem combat_iff_window_rate (now : Int) (thr : ℚ) (times : List Int)
    (hsort : times.Sorted (· ≤ ·)) (hle : ∀ t ∈ times, t ≤ now)
    (_hthr : 0 ≤ thr) :
    ((combat_state_calc now thr times).2 = "combat" ↔
      thr ≤ ((times.filter (fun t =>
          decide (now - COMBAT_WINDOW_MS ≤ t ∧ t ≤ now))).length : ℚ) /
        ((COMBAT_WINDOW_MS : ℚ) / 1000)) := by
  have hcnt : pruneOld (now - COMBAT_WINDOW_MS) times =
      times.filter (fun t => decide (now - COMBAT_WINDOW_MS ≤ t ∧ t ≤ now)) := by
    rw [pruneOld_eq_filter _ _ hsort, filter_window times now hle]
  show (if thr ≤ ((pruneOld (now - COMBAT_WINDOW_MS) times).length : ℚ) /
      ((COMBAT_WINDOW_MS : ℚ) / 1000) then "combat" else "idle") = "combat" ↔ _
  rw [hcnt]
  by_cases hc : thr ≤ ((times.filter (fun t =>
      decide (now - COMBAT_WINDOW_MS ≤ t ∧ t ≤ now))).length : ℚ) /
      ((COMBAT_WINDOW_MS : ℚ) / 1000)
  · simp [if_pos hc, hc]
  · rw [if_neg hc]
    simp only [iff_false, hc]
    intro hbad
    exact absurd hbad (by simp)

/-- Witness for C2 at the spec's scenario: threshold 2.0, left downs at
0, 300 and 600 ms, read at 600 ms: 3 downs in the window, so combat. -/
theorem combat_iff_window_rate_witness :
    (combat_state_calc 600 2 [0, 300, 600]).2 = "combat" :=
  (combat_iff_window_rate 600 2 [0, 300, 600] (by decide) (by decide)
    (by norm_num)).mpr (by norm_num [COMBAT_WINDOW_MS])

/-- C4: replaying any non-decreasing sequence of LMB-down events (all at
or before `now`) through `_record_lmb_down`, the rate read at `now`
equals the exact count of recorded downs in `[now - 1000, now]`; it is
never negative; and the deque never retains two entries more than one
window apart, so pruning on both insert and read keeps it bounded. -/
theorem rate_counts_exact_window (ts : List Int) (now : Int)
    (hsort : ts.Sorted (· ≤ ·)) (hle : ∀ t ∈ ts, t ≤ now) :
    current_rate now (foldRecord ts) =
      ((ts.filter (fun t =>
        decide (now - COMBAT_WINDOW_MS ≤ t ∧ t ≤ now))).length : ℚ)
    ∧ 0 ≤ current_rate now (foldRecord ts)
    ∧ ∀ a ∈ foldRecord ts, ∀ b ∈ foldRecord ts,
        a - b ≤ COMBAT_WINDOW_MS := by
  have hwin : ((COMBAT_WINDOW_MS : ℚ) / 1000) = 1 := by
    norm_num [COMBAT_WINDOW_MS]
  cases hl : ts.getLast? with
  | none =>
    have h0 : ts = [] := List.getLast?_eq_none_iff.mp hl
    subst h0
    refine ⟨?_, ?_, by simp [foldRecord]⟩
    · show ((pruneOld (now - COMBAT_WINDOW_MS) (foldRecord [])).length : ℚ) /
        ((COMBAT_WINDOW_MS : ℚ) / 1000) = _
      rw [hwin]
      simp [foldRecord, pruneOld]
    · show (0 : ℚ) ≤ ((pruneOld (now - COMBAT_WINDOW_MS)
        (foldRecord [])).length : ℚ) / ((COMBAT_WINDOW_MS : ℚ) / 1000)
      rw [hwin, div_one]
      exact Nat.cast_nonneg _
  | some t0 =>
    have hF := foldRecord_eq ts hsort t0 hl
    have ht0 : t0 ∈ ts := mem_of_getLastOpt ts t0 hl
    have ht0now : t0 ≤ now := hle t0 ht0
    have hsF : (foldRecord ts).Sorted (· ≤ ·) := by
      rw [hF]
      exact hsort.filter _
    have hkey : pruneOld (now - COMBAT_WINDOW_MS) (foldRecord ts) =
        ts.filter (fun t =>
          decide (now - COMBAT_WINDOW_MS ≤ t ∧ t ≤ now)) := by
      rw [pruneOld_eq_filter _ _ hsF, hF, List.filter_filter]
      rw [show (fun u => decide (now - COMBAT_WINDOW_MS ≤ u) &&
            decide (t0 - COMBAT_WINDOW_MS ≤ u)) =
          (fun u => decide (now - COMBAT_WINDOW_MS ≤ u ∧ t0 - COMBAT_WINDOW_MS ≤ u))
        from funext fun u => by simp]
      apply List.filter_congr
      intro x hx
      have hxn := hle x hx
      rw [decide_eq_decide]
      constructor
      · intro h1
        exact ⟨h1.1, hxn⟩
      · intro h1
        exact ⟨h1.1, by omega⟩
    refine ⟨?_, ?_, ?_⟩
    · show ((pruneOld (now - COMBAT_WINDOW_MS) (foldRecord ts)).length : ℚ) /
        ((COMBAT_WINDOW_MS : ℚ) / 1000) = _
      rw [hkey, hwin, div_one]
    · show (0 : ℚ) ≤ ((pruneOld (now - COMBAT_WINDOW_MS)
        (foldRecord ts)).length : ℚ) / ((COMBAT_WINDOW_MS : ℚ) / 1000)
      rw [hwin, div_one]
      exact Nat.cast_nonneg _
    · intro a ha b hb
      rw [hF] at ha hb
      have ha1 := List.mem_filter.mp ha
      have hb1 := List.mem_filter.mp hb
      have hat0 : a ≤ t0 := sorted_le_last ts t0 hsort hl a ha1.1
      have hbW : t0 - COMBAT_WINDOW_MS ≤ b := by
        have hb2 := hb1.2
        rw [decide_eq_true_eq] at hb2
        exact hb2
      omega

/-- Witness for C4 at the spec's scenario: downs at 0, 300 and 600 ms,
rate read at 600 ms is exactly 3. -/
theorem rate_counts_exact_window_witness :
    current_rate 600 (foldRecord [0, 300, 600]) = 3 := by
  rw [(rate_counts_exact_window [0, 300, 600] 600 (by decide) (by decide)).1]
  norm_num [COMBAT_WINDOW_MS]

end FPSMouse
